import Mathlib

/-!
Shallow embedding of `src/packages/scheduler/lib/models/schedules.ts` (the
Schedule Store of the nango-integration repository) and verification of the
frozen claims about it.

Modelling conventions:
* TypeScript `Date` values are embedded as `Nat` (milliseconds since epoch).
* The storage engine (knex/Postgres) is embedded as a list of rows
  (`List DbSchedule`); each operation takes the row list plus an explicit
  outcome parameter describing whether the underlying engine call succeeds or
  raises a fault (the `catch` branches of the source).  `stringifyError err`
  is embedded as the fault's message string itself.
* `Result<T>` (`Ok`/`Err` of `@nangohq/utils`) is embedded as
  `Except String T`, errors carrying the exact message text the source builds.
* JavaScript truthiness tests (`props.frequencyMs ? ... : ...`,
  `props.payload ? ... : ...`, `if (params.name)`) are embedded explicitly:
  a number is truthy iff nonzero, a string iff nonempty, and JSON values
  `null`, `false`, `0`, `""` are falsy.
-/

namespace NangoScheduler

/-- The `ScheduleState` string union `'STARTED' | 'PAUSED' | 'DELETED'`
of `scheduler/lib/types.ts`. -/
inductive ScheduleState where
  | STARTED
  | PAUSED
  | DELETED
deriving DecidableEq, Repr

/-- The literal string each `ScheduleState` value denotes in the source,
used when the source interpolates a state into an error message. -/
def ScheduleState.str : ScheduleState → String
  | .STARTED => "STARTED"
  | .PAUSED => "PAUSED"
  | .DELETED => "DELETED"

/-- Embedding of `JsonValue` from `type-fest`: an opaque JSON tree.  Numbers are embedded as
integers (the payload is passed through unexamined, so only equality and
truthiness of numbers matter to the claims). -/
inductive JsonValue where
  | null
  | bool (b : Bool)
  | num (n : Int)
  | str (s : String)
  | arr (elems : List JsonValue)
  | obj (fields : List (String × JsonValue))

/-- JavaScript truthiness of a `JsonValue`: `null`, `false`, `0` and `""` are
falsy; every array and object is truthy. -/
def JsonValue.truthy : JsonValue → Bool
  | .null => false
  | .bool b => b
  | .num n => n != 0
  | .str s => s != ""
  | .arr _ => true
  | .obj _ => true

/-- The structured interval value produced by the `postgres-interval` package
(see the comment above `postgresVal` in the source): every field is optional,
absence meaning zero. -/
structure PgInterval where
  years : Option Nat := none
  months : Option Nat := none
  days : Option Nat := none
  hours : Option Nat := none
  minutes : Option Nat := none
  seconds : Option Nat := none
  milliseconds : Option Nat := none
deriving DecidableEq, Repr

/-- Source `postgresIntervalInMs` (`schedules.ts` lines 46-64): collapses a
structured interval into a single millisecond count with fixed unit weights,
each absent field counting as zero (`?? 0`). -/
def postgresIntervalInMs (i : PgInterval) : Nat :=
  (i.years.getD 0) * 31536000000 +
  (i.months.getD 0) * 2592000000 +
  (i.days.getD 0) * 86400000 +
  (i.hours.getD 0) * 3600000 +
  (i.minutes.getD 0) * 60000 +
  (i.seconds.getD 0) * 1000 +
  (i.milliseconds.getD 0)

/-- The interval literal `` `${frequencyMs} milliseconds` `` that
`DbSchedule.to` (lines 66-77) writes into the `frequency` column. -/
def encodeFrequency (frequencyMs : Nat) : String :=
  toString frequencyMs ++ " milliseconds"

/-- Modelled from the spec: the storage engine itself (out of scope, §1 of the
spec; treated at its boundary, §6) stores the persisted literal
`"<n> milliseconds"` in an `interval` column and hands it back through
`postgres-interval` as a structured value.  Postgres normalizes a pure
millisecond quantity into the time-of-day fields (hours/minutes/seconds/
milliseconds) without spilling into days or months, which is what this
function computes. -/
def intervalOfMs (n : Nat) : PgInterval :=
  { hours := some (n / 3600000)
    minutes := some (n % 3600000 / 60000)
    seconds := some (n % 60000 / 1000)
    milliseconds := some (n % 1000) }


/-- The in-memory `Schedule` entity of `scheduler/lib/types.ts`. -/
structure Schedule where
  id : String
  name : String
  state : ScheduleState
  startsAt : Nat
  frequencyMs : Nat
  payload : JsonValue
  createdAt : Nat
  updatedAt : Nat
  deletedAt : Option Nat

/-- The storage row shape (`DbSchedule` interface, lines 33-43).  The
`frequency` column is an `interval` at the storage engine; writes persist
`encodeFrequency` and reads see the engine's structured normalization, so the
column is embedded as the structured `PgInterval` the engine holds. -/
structure DbSchedule where
  id : String
  name : String
  state : ScheduleState
  starts_at : Nat
  frequency : PgInterval
  payload : JsonValue
  created_at : Nat
  updated_at : Nat
  deleted_at : Option Nat

/-- Source `DbSchedule.to` (lines 67-77): serialize a `Schedule` into the row shape.
The source writes the string `encodeFrequency schedule.frequencyMs`; the
stored column value is the engine's structured form of that literal,
`intervalOfMs schedule.frequencyMs`. -/
def DbSchedule.toRow (schedule : Schedule) : DbSchedule :=
  { id := schedule.id
    name := schedule.name
    state := schedule.state
    starts_at := schedule.startsAt
    frequency := intervalOfMs schedule.frequencyMs
    payload := schedule.payload
    created_at := schedule.createdAt
    updated_at := schedule.updatedAt
    deleted_at := schedule.deletedAt }

/-- Source `DbSchedule.from` (lines 78-88): decode a row into a `Schedule`,
running the interval codec on the `frequency` column. -/
def DbSchedule.fromRow (dbSchedule : DbSchedule) : Schedule :=
  { id := dbSchedule.id
    name := dbSchedule.name
    state := dbSchedule.state
    startsAt := dbSchedule.starts_at
    frequencyMs := postgresIntervalInMs dbSchedule.frequency
    payload := dbSchedule.payload
    createdAt := dbSchedule.created_at
    updatedAt := dbSchedule.updated_at
    deletedAt := dbSchedule.deleted_at }


/-- The transition table `validScheduleStateTransitions` (lines 15-19),
as the list of its `(from, to)` pairs. -/
def validScheduleStateTransitions : List (ScheduleState × ScheduleState) :=
  [(.STARTED, .PAUSED), (.STARTED, .DELETED), (.PAUSED, .STARTED)]

/-- Source `ScheduleStateTransition.validate` (lines 22-31): linear search of the
transition table, returning the matched pair or a failure naming both
endpoints. -/
def validate (src tgt : ScheduleState) : Except String (ScheduleState × ScheduleState) :=
  match validScheduleStateTransitions.find? (fun t => t.1 == src && t.2 == tgt) with
  | some t => .ok t
  | none => .error ("Invalid state transition from " ++ src.str ++ " to " ++ tgt.str)

/-- Outcome of a single storage-engine call that either succeeds or raises
(the `catch (err)` branches); the fault payload is `stringifyError err`. -/
inductive DbOutcome where
  | ok
  | fault (e : String)

/-- Outcome of the `insert ... returning('*')` call in `create`: besides
succeeding or raising, the engine can report no inserted row
(`!inserted?.[0]`). -/
inductive InsertOutcome where
  | ok
  | noRows
  | fault (e : String)

/-- Source `ScheduleProps = Omit<Schedule, 'id' | 'state' | 'createdAt' |
'updatedAt' | 'deletedAt'>` (line 91). -/
structure ScheduleProps where
  name : String
  startsAt : Nat
  frequencyMs : Nat
  payload : JsonValue

/-- Query `db.from(SCHEDULES_TABLE).where('id', id).first()`: the first row whose
`id` column matches. -/
def findRow (db : List DbSchedule) (id : String) : Option DbSchedule :=
  db.find? (fun r => r.id == id)

/-- Source `create` (lines 92-114).  `now` is `new Date()`, `id` the generated
`uuidv7()`.  On a fault or a no-row report the row list is unchanged and the
error message of the source is returned; on success the inserted row is
appended and decoded back. -/
def create (db : List DbSchedule) (id : String) (now : Nat) (props : ScheduleProps)
    (o : InsertOutcome) : Except String Schedule × List DbSchedule :=
  let newSchedule : Schedule :=
    { id := id
      name := props.name
      state := .STARTED
      payload := props.payload
      startsAt := now
      frequencyMs := props.frequencyMs
      createdAt := now
      updatedAt := now
      deletedAt := none }
  match o with
  | .fault e =>
      (.error ("Error creating schedule '" ++ props.name ++ "': " ++ e), db)
  | .noRows =>
      (.error ("Error: no schedule '" ++ props.name ++ "' created"), db)
  | .ok =>
      let row := DbSchedule.toRow newSchedule
      (.ok (DbSchedule.fromRow row), db ++ [row])

/-- Source `get` (lines 116-126): fetch one row by id; not-found if none matches. -/
def get (db : List DbSchedule) (scheduleId : String) (o : DbOutcome) :
    Except String Schedule :=
  match o with
  | .fault e =>
      .error ("Error getting schedule '" ++ scheduleId ++ "': " ++ e)
  | .ok =>
      match findRow db scheduleId with
      | none => .error ("Error: no schedule '" ++ scheduleId ++ "' found")
      | some schedule => .ok (DbSchedule.fromRow schedule)

/-- Source `transitionState` (lines 128-146): fetch, validate the transition from the
fetched state, then update `state` and `updated_at` on every row matching the
id, returning the first updated row.  `oGet` is the outcome of the inner
`get`'s engine call, `oUpd` that of the update call. -/
def transitionState (db : List DbSchedule) (scheduleId : String) (tgt : ScheduleState)
    (now : Nat) (oGet : DbOutcome) (oUpd : DbOutcome) :
    Except String Schedule × List DbSchedule :=
  match get db scheduleId oGet with
  | .error _ =>
      (.error ("Error: no schedule '" ++ scheduleId ++ "' found"), db)
  | .ok sched =>
      match validate sched.state tgt with
      | .error e => (.error e, db)
      | .ok _ =>
          match oUpd with
          | .fault e =>
              (.error ("Error transitioning schedule '" ++ scheduleId ++ "': " ++ e), db)
          | .ok =>
              let f := fun (r : DbSchedule) => { r with state := tgt, updated_at := now }
              let updated := (db.filter (fun r => r.id == scheduleId)).map f
              let db' := db.map (fun r => if r.id == scheduleId then f r else r)
              (match updated with
               | [] => .error ("Error: no schedule '" ++ scheduleId ++ "' updated")
               | r :: _ => .ok (DbSchedule.fromRow r), db')

/-- The argument of `update`:
`Partial<Pick<ScheduleProps, 'frequencyMs' | 'payload'>> & { id: string }`,
`none` embedding an absent (undefined) field. -/
structure UpdateProps where
  id : String
  frequencyMs : Option Nat := none
  payload : Option JsonValue := none

/-- The `newValues` object of `update` (lines 150-154) applied to a row:
`frequency` is written only when `props.frequencyMs` is truthy (present and
nonzero), `payload` only when `props.payload` is truthy, `updated_at`
always. -/
def applyUpdate (props : UpdateProps) (now : Nat) (r : DbSchedule) : DbSchedule :=
  { r with
    frequency :=
      match props.frequencyMs with
      | some n => if n != 0 then intervalOfMs n else r.frequency
      | none => r.frequency
    payload :=
      match props.payload with
      | some p => if p.truthy then p else r.payload
      | none => r.payload
    updated_at := now }

/-- Source `update` (lines 148-163): partial update of every row matching the id,
returning the first updated row; failure when no row matched. -/
def update (db : List DbSchedule) (props : UpdateProps) (now : Nat) (o : DbOutcome) :
    Except String Schedule × List DbSchedule :=
  match o with
  | .fault e =>
      (.error ("Error updating schedule '" ++ props.id ++ "': " ++ e), db)
  | .ok =>
      let f := applyUpdate props now
      let updated := (db.filter (fun r => r.id == props.id)).map f
      let db' := db.map (fun r => if r.id == props.id then f r else r)
      (match updated with
       | [] => .error ("Error: no schedule '" ++ props.id ++ "' updated")
       | r :: _ => .ok (DbSchedule.fromRow r), db')

/-- The row mutation `remove` issues (line 171): unconditional `DELETED`
stamp. -/
def applyRemove (now : Nat) (r : DbSchedule) : DbSchedule :=
  { r with state := .DELETED, deleted_at := some now, updated_at := now }

/-- Source `remove` (lines 165-180): set `state = 'DELETED'`, `deleted_at = now`,
`updated_at = now` on every row matching the id, with no validator check;
failure when no row matched. -/
def remove (db : List DbSchedule) (id : String) (now : Nat) (o : DbOutcome) :
    Except String Schedule × List DbSchedule :=
  match o with
  | .fault e =>
      (.error ("Error deleting schedule '" ++ id ++ "': " ++ e), db)
  | .ok =>
      let f := applyRemove now
      let deleted := (db.filter (fun r => r.id == id)).map f
      let db' := db.map (fun r => if r.id == id then f r else r)
      (match deleted with
       | [] => .error ("Error: no schedule '" ++ id ++ "' deleted")
       | r :: _ => .ok (DbSchedule.fromRow r), db')

/-- The argument of `search` (line 182): optional exact name and state
filters plus a row limit. -/
structure SearchParams where
  name : Option String := none
  state : Option ScheduleState := none
  limit : Nat

/-- The `WHERE` clauses `search` builds (lines 185-190): the name clause is
added only when `params.name` is truthy (present and nonempty), the state
clause whenever `params.state` is present (a state string is never empty). -/
def matchesSearch (params : SearchParams) (r : DbSchedule) : Bool :=
  (match params.name with
   | some n => if n != "" then r.name == n else true
   | none => true) &&
  (match params.state with
   | some s => r.state == s
   | none => true)

/-- Source `search` (lines 182-196): up to `limit` rows satisfying the clauses,
decoded; an empty result is a success. -/
def search (db : List DbSchedule) (params : SearchParams) (o : DbOutcome) :
    Except String (List Schedule) :=
  match o with
  | .fault e => .error ("Error searching schedules: " ++ e)
  | .ok =>
      .ok (((db.filter (matchesSearch params)).take params.limit).map DbSchedule.fromRow)

/-- The amended C1 invariant: rows have pairwise-distinct ids and a stamped
`deleted_at` occurs only on a `DELETED` row. -/
def GoodDb (db : List DbSchedule) : Prop :=
  db.Pairwise (fun u v => u.id ≠ v.id) ∧
  ∀ r ∈ db, r.deleted_at ≠ none → r.state = .DELETED

/-- The half of the C1 invariant the code maintains, as a standalone
predicate. -/
def DeletedAtOnlyWhenDeleted (db : List DbSchedule) : Prop :=
  ∀ r ∈ db, r.deleted_at ≠ none → r.state = .DELETED

/-- One public mutating operation, any engine outcome.  `create` is invoked
with a fresh `uuidv7()`; per the spec, generator collisions are a trusted
impossibility, so the created id matches no existing row. -/
inductive Step : List DbSchedule → List DbSchedule → Prop where
  | stepCreate (db : List DbSchedule) (id : String) (now : Nat) (props : ScheduleProps)
      (o : InsertOutcome) (hfresh : findRow db id = none) :
      Step db (create db id now props o).2
  | stepTransition (db : List DbSchedule) (scheduleId : String) (tgt : ScheduleState)
      (now : Nat) (oGet oUpd : DbOutcome) :
      Step db (transitionState db scheduleId tgt now oGet oUpd).2
  | stepUpdate (db : List DbSchedule) (props : UpdateProps) (now : Nat) (o : DbOutcome) :
      Step db (update db props now o).2
  | stepRemove (db : List DbSchedule) (id : String) (now : Nat) (o : DbOutcome) :
      Step db (remove db id now o).2

/-- Row lists reachable from the empty store through the public mutating
operations. -/
def Reachable (db : List DbSchedule) : Prop :=
  Relation.ReflTransGen Step [] db

/-- The invariant exactly as the spec states it: `deletedAt` is non-null iff
`state == DELETED`, for every row. -/
def DeletedAtIffDeleted (db : List DbSchedule) : Prop :=
  ∀ r ∈ db, r.deleted_at ≠ none ↔ r.state = .DELETED

/-- Every returned schedule matches the truthy filters of a search. -/
def ResultsMatch (params : SearchParams) (l : List Schedule) : Prop :=
  ∀ s ∈ l,
    (∀ n, params.name = some n → n ≠ "" → s.name = n) ∧
    (∀ st, params.state = some st → s.state = st)

/-- A concrete stored row, for the witnesses and counterexamples: zero
creation timestamps, with the given id, name, state, frequency (in ms),
payload, `updated_at` and `deleted_at`. -/
def exRow (id name : String) (st : ScheduleState) (freqMs : Nat) (p : JsonValue)
    (updAt : Nat) (delAt : Option Nat) : DbSchedule :=
  { id := id, name := name, state := st, starts_at := 0,
    frequency := intervalOfMs freqMs, payload := p, created_at := 0,
    updated_at := updAt, deleted_at := delAt }

deriving instance DecidableEq for Except

/-- Decoding the engine's structured form of `"<n> milliseconds"` gives back
exactly `n`. -/
theorem postgresIntervalInMs_intervalOfMs (n : Nat) :
    postgresIntervalInMs (intervalOfMs n) = n := by
  simp only [postgresIntervalInMs, intervalOfMs, Option.getD_some, Option.getD_none]
  omega

theorem DbSchedule.fromRow_toRow (s : Schedule) :
    DbSchedule.fromRow (DbSchedule.toRow s) = s := by
  simp [DbSchedule.fromRow, DbSchedule.toRow, postgresIntervalInMs_intervalOfMs]

/-- Unfolding `findRow` across a cons cell. -/
theorem findRow_cons (x : DbSchedule) (xs : List DbSchedule) (id : String) :
    findRow (x :: xs) id = if x.id == id then some x else findRow xs id := by
  by_cases hx : (x.id == id) = true
  · simp [findRow, List.find?, hx]
  · have hx' : (x.id == id) = false := by simpa using hx
    simp [findRow, List.find?, hx']

/-- The first match of a predicate heads its filtered list. -/
theorem filter_cons_of_find? {α : Type} (l : List α) (p : α → Bool) (a : α)
    (h : l.find? p = some a) : ∃ t, l.filter p = a :: t := by
  induction l with
  | nil => simp [List.find?] at h
  | cons x xs ih =>
      by_cases hx : p x
      · simp only [List.find?, hx] at h
        obtain rfl : x = a := by injection h
        exact ⟨xs.filter p, by simp [List.filter, hx]⟩
      · have hx' : p x = false := by simpa using hx
        simp only [List.find?, hx'] at h
        obtain ⟨t, ht⟩ := ih h
        exact ⟨t, by simp [List.filter, hx', ht]⟩

/-- Updating the rows matching an id through an id-preserving mutation moves
`findRow` through the mutation. -/
theorem findRow_map_ite (db : List DbSchedule) (id : String) (f : DbSchedule → DbSchedule)
    (hf : ∀ x, (f x).id = x.id) :
    findRow (db.map fun x => if x.id == id then f x else x) id = (findRow db id).map f := by
  induction db with
  | nil => rfl
  | cons x xs ih =>
      simp only [List.map_cons]
      by_cases hx : x.id = id
      · have hb : (x.id == id) = true := by simpa using hx
        have hfb : ((f x).id == id) = true := by simpa [hf] using hx
        simp [findRow_cons, hb, hfb]
      · have hb : (x.id == id) = false := by simpa using hx
        have hhead : (if (x.id == id) = true then f x else x) = x := by simp [hb]
        rw [hhead, findRow_cons, findRow_cons, hb]
        simpa using ih

/-- The row-level effect, result and post-state shared by the three mutating
queries (`update ... where id`): when a row matches, the returned list is
headed by the mutated first match and `findRow` on the new row list yields the
mutated row. -/
theorem mapWhere_spec (db : List DbSchedule) (id : String) (f : DbSchedule → DbSchedule)
    (hf : ∀ x, (f x).id = x.id) (r : DbSchedule) (hfind : findRow db id = some r) :
    (∃ t, (db.filter (fun x => x.id == id)).map f = f r :: t) ∧
    findRow (db.map fun x => if x.id == id then f x else x) id = some (f r) := by
  constructor
  · obtain ⟨t, ht⟩ := filter_cons_of_find? db (fun x => x.id == id) r hfind
    exact ⟨t.map f, by rw [ht]; rfl⟩
  · rw [findRow_map_ite db id f hf, hfind]
    rfl

/-- With no matching row, the mutating queries leave the row list intact. -/
theorem mapWhere_id_of_none (db : List DbSchedule) (id : String) (f : DbSchedule → DbSchedule)
    (hfind : findRow db id = none) :
    (db.filter (fun x => x.id == id)) = [] ∧
    (db.map fun x => if x.id == id then f x else x) = db := by
  have hnone := List.find?_eq_none.mp hfind
  constructor
  · exact List.filter_eq_nil_iff.mpr hnone
  · calc (db.map fun x => if x.id == id then f x else x) = db.map (fun x => x) := by
          apply List.map_congr_left
          intro a ha
          simp [hnone a ha]
      _ = db := List.map_id _

/-- A member carrying the looked-up id is the found row itself, given rows
have pairwise-distinct ids. -/
theorem mem_eq_of_findRow (db : List DbSchedule) (id : String) (r a : DbSchedule)
    (hpw : db.Pairwise (fun u v => u.id ≠ v.id))
    (hfind : findRow db id = some r) (ha : a ∈ db) (haid : a.id = id) : a = r := by
  induction db with
  | nil => simp at ha
  | cons x xs ih =>
      obtain ⟨hx, hxs⟩ := List.pairwise_cons.mp hpw
      by_cases hxid : x.id = id
      · have : findRow (x :: xs) id = some x := by
          rw [findRow_cons]
          simp [hxid]
        rw [this] at hfind
        obtain rfl : x = r := by injection hfind
        rcases List.mem_cons.mp ha with rfl | hmem
        · rfl
        · exact absurd (haid.trans hxid.symm) (hx a hmem).symm
      · have : findRow (x :: xs) id = findRow xs id := by
          rw [findRow_cons]
          simp [hxid]
        rw [this] at hfind
        rcases List.mem_cons.mp ha with rfl | hmem
        · exact absurd haid hxid
        · exact ih hxs hfind hmem

/-- Ids are untouched by an id-preserving row mutation, so pairwise
distinctness survives it. -/
theorem pairwise_ids_map (db : List DbSchedule) (g : DbSchedule → DbSchedule)
    (hg : ∀ x, (g x).id = x.id)
    (h : db.Pairwise (fun u v => u.id ≠ v.id)) :
    (db.map g).Pairwise (fun u v => u.id ≠ v.id) := by
  rw [List.pairwise_map]
  exact h.imp (by intro u v huv; simpa [hg] using huv)

/-- A successfully validated transition never leaves `DELETED`. -/
theorem validate_ok_src_ne_deleted {src tgt : ScheduleState}
    {x : ScheduleState × ScheduleState}
    (h : validate src tgt = .ok x) : src ≠ .DELETED := by
  cases src <;> cases tgt <;> simp_all [validate, validScheduleStateTransitions]


theorem goodDb_create (db : List DbSchedule) (id : String) (now : Nat)
    (props : ScheduleProps) (o : InsertOutcome)
    (hfresh : findRow db id = none) (h : GoodDb db) :
    GoodDb (create db id now props o).2 := by
  cases o with
  | fault e => exact h
  | noRows => exact h
  | ok =>
      obtain ⟨hpw, hdel⟩ := h
      have hnone := List.find?_eq_none.mp hfresh
      simp only [create]
      constructor
      · rw [List.pairwise_append]
        refine ⟨hpw, List.pairwise_singleton _ _, ?_⟩
        intro a ha b hb
        simp only [List.mem_singleton] at hb
        subst hb
        have := hnone a ha
        simp only [DbSchedule.toRow]
        simpa using this
      · intro r hr hdel'
        rcases List.mem_append.mp hr with hmem | hmem
        · exact hdel r hmem hdel'
        · simp only [List.mem_singleton] at hmem
          subst hmem
          simp [DbSchedule.toRow] at hdel'

theorem goodDb_update (db : List DbSchedule) (props : UpdateProps) (now : Nat)
    (o : DbOutcome) (h : GoodDb db) : GoodDb (update db props now o).2 := by
  cases o with
  | fault e => exact h
  | ok =>
      obtain ⟨hpw, hdel⟩ := h
      simp only [update]
      constructor
      · apply pairwise_ids_map _ _ _ hpw
        intro x
        by_cases hx : (x.id == props.id) = true <;> simp [applyUpdate, hx]
      · intro r hr hdel'
        rw [List.mem_map] at hr
        obtain ⟨a, ha, rfl⟩ := hr
        by_cases hx : (a.id == props.id) = true
        · simp only [hx, if_true] at hdel' ⊢
          have hd : (applyUpdate props now a).deleted_at = a.deleted_at := by
            simp [applyUpdate]
          have hs : (applyUpdate props now a).state = a.state := by
            simp [applyUpdate]
          rw [hs]
          exact hdel a ha (hd ▸ hdel')
        · simp only [hx, Bool.false_eq_true, if_false] at hdel' ⊢
          exact hdel a ha hdel'

theorem goodDb_remove (db : List DbSchedule) (id : String) (now : Nat)
    (o : DbOutcome) (h : GoodDb db) : GoodDb (remove db id now o).2 := by
  cases o with
  | fault e => exact h
  | ok =>
      obtain ⟨hpw, hdel⟩ := h
      simp only [remove]
      constructor
      · apply pairwise_ids_map _ _ _ hpw
        intro x
        by_cases hx : (x.id == id) = true <;> simp [applyRemove, hx]
      · intro r hr hdel'
        rw [List.mem_map] at hr
        obtain ⟨a, ha, rfl⟩ := hr
        by_cases hx : (a.id == id) = true
        · simp [hx, applyRemove]
        · simp only [hx, Bool.false_eq_true, if_false] at hdel' ⊢
          exact hdel a ha hdel'

theorem goodDb_transition (db : List DbSchedule) (scheduleId : String)
    (tgt : ScheduleState) (now : Nat) (oGet oUpd : DbOutcome) (h : GoodDb db) :
    GoodDb (transitionState db scheduleId tgt now oGet oUpd).2 := by
  obtain ⟨hpw, hdel⟩ := h
  cases oGet with
  | fault e => exact ⟨hpw, hdel⟩
  | ok =>
      rcases hfind : findRow db scheduleId with _ | r
      · simp only [transitionState, get, hfind]
        exact ⟨hpw, hdel⟩
      · rcases hval : validate (DbSchedule.fromRow r).state tgt with e | x
        · simp only [transitionState, get, hfind, hval]
          exact ⟨hpw, hdel⟩
        · cases oUpd with
          | fault e =>
              simp only [transitionState, get, hfind, hval]
              exact ⟨hpw, hdel⟩
          | ok =>
              simp only [transitionState, get, hfind, hval]
              constructor
              · apply pairwise_ids_map _ _ _ hpw
                intro y
                by_cases hy : (y.id == scheduleId) = true <;> simp [hy]
              · intro r' hr' hd'
                rw [List.mem_map] at hr'
                obtain ⟨a, ha, rfl⟩ := hr'
                by_cases hx : (a.id == scheduleId) = true
                · have haeq : a = r :=
                    mem_eq_of_findRow db scheduleId r a hpw hfind ha (by simpa using hx)
                  subst haeq
                  have hsrc : a.state ≠ .DELETED := by
                    have := validate_ok_src_ne_deleted hval
                    simpa [DbSchedule.fromRow] using this
                  simp only [hx, if_true] at hd'
                  exact absurd (hdel a ha (by simpa using hd')) hsrc
                · simp only [hx, Bool.false_eq_true, if_false] at hd' ⊢
                  exact hdel a ha hd'

/-- On a matching row, `update` returns the mutated first match and the new
row list holds the mutated row under the id. -/
theorem update_ok_of_findRow (db : List DbSchedule) (props : UpdateProps) (now : Nat)
    (r : DbSchedule) (hfind : findRow db props.id = some r) :
    (update db props now .ok).1 = .ok (DbSchedule.fromRow (applyUpdate props now r)) ∧
    findRow (update db props now .ok).2 props.id = some (applyUpdate props now r) := by
  have hid : ∀ x, (applyUpdate props now x).id = x.id := fun x => by simp [applyUpdate]
  obtain ⟨⟨t, ht⟩, hmap⟩ := mapWhere_spec db props.id (applyUpdate props now) hid r hfind
  constructor
  · simp only [update, ht]
  · simpa only [update] using hmap

/-- With no matching row, `update` fails with the source's message. -/
theorem update_none_of_findRow (db : List DbSchedule) (props : UpdateProps) (now : Nat)
    (hfind : findRow db props.id = none) :
    (update db props now .ok).1 =
      .error ("Error: no schedule '" ++ props.id ++ "' updated") := by
  obtain ⟨hfilter, _⟩ := mapWhere_id_of_none db props.id (applyUpdate props now) hfind
  simp only [update, hfilter, List.map_nil]

/-- On a matching row, `remove` returns the DELETED-stamped first match and
the new row list holds the stamped row under the id. -/
theorem remove_ok_of_findRow (db : List DbSchedule) (id : String) (now : Nat)
    (r : DbSchedule) (hfind : findRow db id = some r) :
    (remove db id now .ok).1 = .ok (DbSchedule.fromRow (applyRemove now r)) ∧
    findRow (remove db id now .ok).2 id = some (applyRemove now r) := by
  have hid : ∀ x, (applyRemove now x).id = x.id := fun x => by simp [applyRemove]
  obtain ⟨⟨t, ht⟩, hmap⟩ := mapWhere_spec db id (applyRemove now) hid r hfind
  constructor
  · simp only [remove, ht]
  · simpa only [remove] using hmap

theorem goodDb_of_reachable (db : List DbSchedule) (h : Reachable db) : GoodDb db := by
  induction h with
  | refl => exact ⟨List.Pairwise.nil, by intro r hr; simp at hr⟩
  | tail _ hstep ih =>
      cases hstep with
      | stepCreate id now props o hfresh => exact goodDb_create _ id now props o hfresh ih
      | stepTransition sid tgt now oGet oUpd =>
          exact goodDb_transition _ sid tgt now oGet oUpd ih
      | stepUpdate props now o => exact goodDb_update _ props now o ih
      | stepRemove id now o => exact goodDb_remove _ id now o ih

/-- Off-table pairs produce the endpoint-naming failure. -/
theorem validate_of_not_mem (src tgt : ScheduleState)
    (h : (src, tgt) ∉ validScheduleStateTransitions) :
    validate src tgt =
      .error ("Invalid state transition from " ++ src.str ++ " to " ++ tgt.str) := by
  cases src <;> cases tgt <;> first | rfl | exact absurd (by decide) h

/-- Claim C1 (amended): in every schedule store reachable through the public
operations (with freshly generated create ids), a non-null `deleted_at`
occurs only on a row whose state is `DELETED`.  The converse direction of the
original claim is false: `transitionState` to `DELETED` does not stamp
`deleted_at` (see the counterexample). -/
theorem reachable_deletedAt_only_when_deleted (db : List DbSchedule)
    (h : Reachable db) : DeletedAtOnlyWhenDeleted db :=
  (goodDb_of_reachable db h).2

/-- Witness: the amended C1 theorem applied to the store reached by one
successful `create`. -/
theorem reachable_deletedAt_only_when_deleted_witness :
    DeletedAtOnlyWhenDeleted
      (create [] "0191" 0
        { name := "job", startsAt := 0, frequencyMs := 60000, payload := .null } .ok).2 :=
  reachable_deletedAt_only_when_deleted _
    (Relation.ReflTransGen.refl.tail
      (Step.stepCreate [] "0191" 0
        { name := "job", startsAt := 0, frequencyMs := 60000, payload := .null } .ok rfl))

/-- Claim C1 counterexample: `create` then `transitionState(id, 'DELETED')`
(a legal STARTED to DELETED edge) reaches a store whose single row has
`state = DELETED` but `deleted_at = null`, because `transitionState` writes
only `state` and `updated_at` (line 138) — so the claimed iff invariant fails
on a reachable state. -/
theorem transition_to_deleted_skips_deletedAt_stamp :
    Reachable (transitionState
      (create [] "0191" 0
        { name := "job", startsAt := 0, frequencyMs := 60000, payload := .null } .ok).2
      "0191" .DELETED 1 .ok .ok).2 ∧
    (transitionState
      (create [] "0191" 0
        { name := "job", startsAt := 0, frequencyMs := 60000, payload := .null } .ok).2
      "0191" .DELETED 1 .ok .ok).2 =
      [{ id := "0191", name := "job", state := .DELETED, starts_at := 0,
         frequency := intervalOfMs 60000, payload := .null, created_at := 0,
         updated_at := 1, deleted_at := none }] ∧
    ¬ DeletedAtIffDeleted (transitionState
      (create [] "0191" 0
        { name := "job", startsAt := 0, frequencyMs := 60000, payload := .null } .ok).2
      "0191" .DELETED 1 .ok .ok).2 := by
  have hdb : (transitionState
      (create [] "0191" 0
        { name := "job", startsAt := 0, frequencyMs := 60000, payload := .null } .ok).2
      "0191" .DELETED 1 .ok .ok).2 =
      [{ id := "0191", name := "job", state := .DELETED, starts_at := 0,
         frequency := intervalOfMs 60000, payload := .null, created_at := 0,
         updated_at := 1, deleted_at := none }] := rfl
  refine ⟨?_, hdb, ?_⟩
  · exact (Relation.ReflTransGen.refl.tail
      (Step.stepCreate [] "0191" 0
        { name := "job", startsAt := 0, frequencyMs := 60000, payload := .null } .ok rfl)).tail
      (Step.stepTransition _ "0191" .DELETED 1 .ok .ok)
  · intro hcontra
    rw [hdb] at hcontra
    have h2 := hcontra _ (List.mem_singleton.mpr rfl)
    exact (h2.mpr rfl) rfl

/-- Claim C2: any `(from, to)` pair outside the transition table makes
`transitionState` return the invalid-transition failure and leave the stored
rows untouched, whatever the engine outcome of the never-reached update
query. -/
theorem transitionState_invalid_is_noop (db : List DbSchedule) (scheduleId : String)
    (src tgt : ScheduleState) (now : Nat) (oUpd : DbOutcome) (r : DbSchedule)
    (hfind : findRow db scheduleId = some r) (hsrc : r.state = src)
    (hinv : (src, tgt) ∉ validScheduleStateTransitions) :
    transitionState db scheduleId tgt now .ok oUpd =
      (.error ("Invalid state transition from " ++ src.str ++ " to " ++ tgt.str), db) := by
  subst hsrc
  have hval := validate_of_not_mem r.state tgt hinv
  simp [transitionState, get, hfind, DbSchedule.fromRow, hval]

/-- Witness: PAUSED to DELETED rejected on a concrete one-row store, rows
unchanged. -/
theorem transitionState_invalid_is_noop_witness :
    transitionState
      [{ id := "w2", name := "n", state := .PAUSED, starts_at := 0,
         frequency := intervalOfMs 1000, payload := .null, created_at := 0,
         updated_at := 0, deleted_at := none }] "w2" .DELETED 9 .ok .ok =
      (.error ("Invalid state transition from " ++ ScheduleState.PAUSED.str ++
          " to " ++ ScheduleState.DELETED.str),
       [{ id := "w2", name := "n", state := .PAUSED, starts_at := 0,
          frequency := intervalOfMs 1000, payload := .null, created_at := 0,
          updated_at := 0, deleted_at := none }]) :=
  transitionState_invalid_is_noop _ "w2" .PAUSED .DELETED 9 .ok _ rfl rfl (by decide)

/-- Claim C3: `validate` matches exactly the three table edges, returning the
matched pair, and fails with the endpoint-naming message otherwise; in
particular every self-transition, every edge out of DELETED, and
PAUSED to DELETED fail. -/
theorem validate_characterization :
    (∀ src tgt : ScheduleState,
      (validate src tgt = .ok (src, tgt) ↔
        (src, tgt) ∈ validScheduleStateTransitions) ∧
      ((src, tgt) ∈ validScheduleStateTransitions ∨
        validate src tgt =
          .error ("Invalid state transition from " ++ src.str ++ " to " ++ tgt.str))) ∧
    (∀ s : ScheduleState,
      validate s s =
        .error ("Invalid state transition from " ++ s.str ++ " to " ++ s.str)) ∧
    (∀ tgt : ScheduleState,
      validate .DELETED tgt =
        .error ("Invalid state transition from DELETED to " ++ tgt.str)) ∧
    validate .PAUSED .DELETED =
      .error "Invalid state transition from PAUSED to DELETED" := by
  refine ⟨fun src tgt => ?_, fun s => ?_, fun tgt => ?_, ?_⟩
  · cases src <;> cases tgt <;> exact ⟨by decide, by decide⟩
  · cases s <;> rfl
  · cases tgt <;> rfl
  · rfl

/-- Claim C4: a successful `create` returns a schedule with `state = STARTED`,
`deletedAt = null`, and `startsAt = createdAt = updatedAt = now`, whatever
`startsAt` the caller supplied in `props`; and when the engine reports no
inserted row, `create` fails with the creation error. -/
theorem create_spec (db : List DbSchedule) (id : String) (now : Nat)
    (props : ScheduleProps) :
    (create db id now props .ok).1 =
      .ok { id := id, name := props.name, state := .STARTED, startsAt := now,
            frequencyMs := props.frequencyMs, payload := props.payload,
            createdAt := now, updatedAt := now, deletedAt := none } ∧
    (create db id now props .noRows).1 =
      .error ("Error: no schedule '" ++ props.name ++ "' created") := by
  constructor
  · simp only [create]
    rw [DbSchedule.fromRow_toRow]
  · rfl

/-- Claim C5: the interval codec round-trips — decoding the storage engine's
structured form of the persisted literal `"<n> milliseconds"` with the fixed
unit weights yields `n` exactly, for every `n`, and in particular for
90000000 and 0.  Both directions are total pure functions. -/
theorem interval_codec_roundtrip (n : Nat) :
    postgresIntervalInMs (intervalOfMs n) = n ∧
    postgresIntervalInMs (intervalOfMs 90000000) = 90000000 ∧
    postgresIntervalInMs (intervalOfMs 0) = 0 :=
  ⟨postgresIntervalInMs_intervalOfMs n,
   postgresIntervalInMs_intervalOfMs 90000000,
   postgresIntervalInMs_intervalOfMs 0⟩


/-- Claim C6: `update` writes only the supplied fields — a payload-only call
leaves the stored `frequency` untouched — while `updated_at` is refreshed on
every call, including one supplying neither field; and it fails when no row
matches the id. -/
theorem update_partial_fields (db db2 : List DbSchedule) (id : String)
    (r : DbSchedule) (p : JsonValue) (props2 : UpdateProps) (now : Nat)
    (hfind : findRow db id = some r) (hp : p.truthy = true)
    (hnone : findRow db2 props2.id = none) :
    ((update db { id := id, payload := some p } now .ok).1 =
        .ok (DbSchedule.fromRow { r with payload := p, updated_at := now }) ∧
      findRow (update db { id := id, payload := some p } now .ok).2 id =
        some { r with payload := p, updated_at := now }) ∧
    ((update db { id := id } now .ok).1 =
        .ok (DbSchedule.fromRow { r with updated_at := now }) ∧
      findRow (update db { id := id } now .ok).2 id =
        some { r with updated_at := now }) ∧
    (update db2 props2 now .ok).1 =
      .error ("Error: no schedule '" ++ props2.id ++ "' updated") := by
  have h1 := update_ok_of_findRow db { id := id, payload := some p } now r hfind
  have hap1 : applyUpdate { id := id, payload := some p } now r =
      { r with payload := p, updated_at := now } := by
    simp [applyUpdate, hp]
  have h2 := update_ok_of_findRow db { id := id } now r hfind
  have hap2 : applyUpdate { id := id } now r = { r with updated_at := now } := by
    simp [applyUpdate]
  rw [hap1] at h1
  rw [hap2] at h2
  exact ⟨h1, h2, update_none_of_findRow db2 props2 now hnone⟩

/-- Witness: on a one-row store, a payload-only update keeps `frequency`, a
field-less update only refreshes `updated_at`, and an unknown id fails. -/
theorem update_partial_fields_witness :
    ((update [exRow "w6" "n" .STARTED 2000 .null 0 none]
        { id := "w6", payload := some (.num 7) } 5 .ok).1 =
        .ok (DbSchedule.fromRow (exRow "w6" "n" .STARTED 2000 (.num 7) 5 none)) ∧
      findRow (update [exRow "w6" "n" .STARTED 2000 .null 0 none]
        { id := "w6", payload := some (.num 7) } 5 .ok).2 "w6" =
        some (exRow "w6" "n" .STARTED 2000 (.num 7) 5 none)) ∧
    ((update [exRow "w6" "n" .STARTED 2000 .null 0 none] { id := "w6" } 5 .ok).1 =
        .ok (DbSchedule.fromRow (exRow "w6" "n" .STARTED 2000 .null 5 none)) ∧
      findRow (update [exRow "w6" "n" .STARTED 2000 .null 0 none]
        { id := "w6" } 5 .ok).2 "w6" =
        some (exRow "w6" "n" .STARTED 2000 .null 5 none)) ∧
    (update [] { id := "ghost" } 5 .ok).1 =
      .error ("Error: no schedule '" ++ "ghost" ++ "' updated") :=
  update_partial_fields [exRow "w6" "n" .STARTED 2000 .null 0 none] [] "w6"
    (exRow "w6" "n" .STARTED 2000 .null 0 none) (.num 7)
    { id := "ghost" } 5 rfl rfl rfl

/-- Claim C7: `remove` succeeds on every matching row regardless of its
current state — the transition table is never consulted, so even an
already-DELETED row is re-stamped — setting `state = DELETED`,
`deleted_at = now`, `updated_at = now`; afterwards `get` returns state
DELETED with non-null `deletedAt`; `remove` fails exactly on an unmatched
id. -/
theorem remove_spec (db db2 : List DbSchedule) (id id2 : String) (now : Nat)
    (r : DbSchedule) (hfind : findRow db id = some r)
    (hnone : findRow db2 id2 = none) :
    (remove db id now .ok).1 = .ok (DbSchedule.fromRow (applyRemove now r)) ∧
    findRow (remove db id now .ok).2 id = some (applyRemove now r) ∧
    get (remove db id now .ok).2 id .ok = .ok (DbSchedule.fromRow (applyRemove now r)) ∧
    (DbSchedule.fromRow (applyRemove now r)).state = .DELETED ∧
    (DbSchedule.fromRow (applyRemove now r)).deletedAt = some now ∧
    (remove db2 id2 now .ok).1 =
      .error ("Error: no schedule '" ++ id2 ++ "' deleted") := by
  obtain ⟨hres, hrow⟩ := remove_ok_of_findRow db id now r hfind
  refine ⟨hres, hrow, ?_, rfl, rfl, ?_⟩
  · simp [get, hrow]
  · obtain ⟨hfilter, _⟩ := mapWhere_id_of_none db2 id2 (applyRemove now) hnone
    simp only [remove, hfilter, List.map_nil]

/-- Witness: removing an already-DELETED row succeeds again (idempotent
re-stamp), and removing an unknown id fails. -/
theorem remove_spec_witness :
    (remove [exRow "w7" "n" .DELETED 1000 .null 3 (some 3)] "w7" 8 .ok).1 =
      .ok (DbSchedule.fromRow (applyRemove 8 (exRow "w7" "n" .DELETED 1000 .null 3 (some 3)))) ∧
    findRow (remove [exRow "w7" "n" .DELETED 1000 .null 3 (some 3)] "w7" 8 .ok).2 "w7" =
      some (applyRemove 8 (exRow "w7" "n" .DELETED 1000 .null 3 (some 3))) ∧
    get (remove [exRow "w7" "n" .DELETED 1000 .null 3 (some 3)] "w7" 8 .ok).2 "w7" .ok =
      .ok (DbSchedule.fromRow (applyRemove 8 (exRow "w7" "n" .DELETED 1000 .null 3 (some 3)))) ∧
    (DbSchedule.fromRow (applyRemove 8 (exRow "w7" "n" .DELETED 1000 .null 3 (some 3)))).state =
      .DELETED ∧
    (DbSchedule.fromRow (applyRemove 8 (exRow "w7" "n" .DELETED 1000 .null 3 (some 3)))).deletedAt =
      some 8 ∧
    (remove [] "ghost" 8 .ok).1 =
      .error ("Error: no schedule '" ++ "ghost" ++ "' deleted") :=
  remove_spec [exRow "w7" "n" .DELETED 1000 .null 3 (some 3)] [] "w7" "ghost" 8
    (exRow "w7" "n" .DELETED 1000 .null 3 (some 3)) rfl rfl

/-- Claim C8 (amended): every operation catches engine faults and returns an
error Result whose message names the operation and the affected id or name
and carries the original cause — except that a fault in `transitionState`'s
internal fetch surfaces as the generic not-found message for the id, with the
original cause dropped (see the counterexample). -/
theorem operations_wrap_faults (db : List DbSchedule) (e id : String)
    (props : ScheduleProps) (uprops : UpdateProps) (params : SearchParams)
    (tgt : ScheduleState) (now : Nat) (oUpd : DbOutcome) (r : DbSchedule)
    (x : ScheduleState × ScheduleState)
    (hfind : findRow db id = some r) (hval : validate r.state tgt = .ok x) :
    (create db id now props (.fault e)).1 =
      .error ("Error creating schedule '" ++ props.name ++ "': " ++ e) ∧
    get db id (.fault e) = .error ("Error getting schedule '" ++ id ++ "': " ++ e) ∧
    (update db uprops now (.fault e)).1 =
      .error ("Error updating schedule '" ++ uprops.id ++ "': " ++ e) ∧
    (remove db id now (.fault e)).1 =
      .error ("Error deleting schedule '" ++ id ++ "': " ++ e) ∧
    search db params (.fault e) = .error ("Error searching schedules: " ++ e) ∧
    (transitionState db id tgt now .ok (.fault e)).1 =
      .error ("Error transitioning schedule '" ++ id ++ "': " ++ e) ∧
    (transitionState db id tgt now (.fault e) oUpd).1 =
      .error ("Error: no schedule '" ++ id ++ "' found") := by
  refine ⟨rfl, rfl, rfl, rfl, rfl, ?_, rfl⟩
  simp only [transitionState, get, hfind, DbSchedule.fromRow, hval]

/-- Witness: the wrapped fault messages at a concrete store and fault. -/
theorem operations_wrap_faults_witness :
    (create [exRow "w8" "n" .STARTED 1000 .null 0 none] "w8" 2
        { name := "nm", startsAt := 0, frequencyMs := 1, payload := .null }
        (.fault "boom")).1 =
      .error ("Error creating schedule '" ++ "nm" ++ "': " ++ "boom") ∧
    get [exRow "w8" "n" .STARTED 1000 .null 0 none] "w8" (.fault "boom") =
      .error ("Error getting schedule '" ++ "w8" ++ "': " ++ "boom") ∧
    (update [exRow "w8" "n" .STARTED 1000 .null 0 none] { id := "w8" } 2
        (.fault "boom")).1 =
      .error ("Error updating schedule '" ++ "w8" ++ "': " ++ "boom") ∧
    (remove [exRow "w8" "n" .STARTED 1000 .null 0 none] "w8" 2 (.fault "boom")).1 =
      .error ("Error deleting schedule '" ++ "w8" ++ "': " ++ "boom") ∧
    search [exRow "w8" "n" .STARTED 1000 .null 0 none] { limit := 5 } (.fault "boom") =
      .error ("Error searching schedules: " ++ "boom") ∧
    (transitionState [exRow "w8" "n" .STARTED 1000 .null 0 none] "w8" .PAUSED 2
        .ok (.fault "boom")).1 =
      .error ("Error transitioning schedule '" ++ "w8" ++ "': " ++ "boom") ∧
    (transitionState [exRow "w8" "n" .STARTED 1000 .null 0 none] "w8" .PAUSED 2
        (.fault "boom") .ok).1 =
      .error ("Error: no schedule '" ++ "w8" ++ "' found") :=
  operations_wrap_faults [exRow "w8" "n" .STARTED 1000 .null 0 none] "boom" "w8"
    { name := "nm", startsAt := 0, frequencyMs := 1, payload := .null }
    { id := "w8" } { limit := 5 } .PAUSED 2 .ok
    (exRow "w8" "n" .STARTED 1000 .null 0 none) (.STARTED, .PAUSED) rfl rfl

/-- Claim C8 counterexample: inside `transitionState` the internal `get`
catches an engine fault itself and returns an error Result, so
`transitionState` reports the generic not-found message (line 132): the same
error is returned whatever the fault was, and the original cause is lost. -/
theorem transitionState_get_fault_drops_cause :
    (transitionState [] "s1" .PAUSED 7 (.fault "connection reset") .ok).1 =
      .error "Error: no schedule 's1' found" ∧
    (transitionState [] "s1" .PAUSED 7 (.fault "connection reset") .ok).1 =
      (transitionState [] "s1" .PAUSED 7 (.fault "database timeout") .ok).1 :=
  ⟨rfl, rfl⟩

/-- Claim C9 (amended): `search` returns at most `limit` rows, each matching
the supplied state filter, and the supplied name filter whenever that name is
nonempty — a present-but-empty name is ignored by the source's truthiness
check (see the counterexample); a search matching zero rows succeeds with the
empty list; only an engine fault makes it fail. -/
theorem search_spec (db db0 : List DbSchedule) (params params0 : SearchParams)
    (e : String) (hempty : db0.filter (matchesSearch params0) = []) :
    search db params (.fault e) = .error ("Error searching schedules: " ++ e) ∧
    search db params .ok =
      .ok (((db.filter (matchesSearch params)).take params.limit).map DbSchedule.fromRow) ∧
    (((db.filter (matchesSearch params)).take params.limit).map DbSchedule.fromRow).length ≤
      params.limit ∧
    ResultsMatch params
      (((db.filter (matchesSearch params)).take params.limit).map DbSchedule.fromRow) ∧
    search db0 params0 .ok = .ok [] := by
  refine ⟨rfl, rfl, ?_, ?_, ?_⟩
  · rw [List.length_map, List.length_take]
    exact Nat.min_le_left _ _
  · intro s hs
    rw [List.mem_map] at hs
    obtain ⟨a, ha, rfl⟩ := hs
    have ha' : a ∈ db.filter (matchesSearch params) := List.mem_of_mem_take ha
    have hm : matchesSearch params a = true := List.of_mem_filter ha'
    constructor
    · intro n hn hne
      have hb : (n != "") = true := by simpa using hne
      simp only [matchesSearch, hn, hb, if_true, Bool.and_eq_true] at hm
      have h := hm.1
      simp only [beq_iff_eq] at h
      exact h
    · intro st hst
      simp only [matchesSearch, hst, Bool.and_eq_true] at hm
      have h := hm.2
      simp only [beq_iff_eq] at h
      exact h
  · simp only [search, hempty, List.take_nil, List.map_nil]

/-- Witness: with rows "a" (STARTED) and "b" (PAUSED), a state filter returns
only the matching rows within the limit, and a search over the empty store
succeeds with the empty list. -/
theorem search_spec_witness :
    search [exRow "a1" "a" .STARTED 1000 .null 0 none,
        exRow "b1" "b" .PAUSED 1000 .null 0 none]
      { state := some .STARTED, limit := 10 } (.fault "disk failure") =
      .error ("Error searching schedules: " ++ "disk failure") ∧
    search [exRow "a1" "a" .STARTED 1000 .null 0 none,
        exRow "b1" "b" .PAUSED 1000 .null 0 none]
      { state := some .STARTED, limit := 10 } .ok =
      .ok ((([exRow "a1" "a" .STARTED 1000 .null 0 none,
          exRow "b1" "b" .PAUSED 1000 .null 0 none].filter
            (matchesSearch { state := some .STARTED, limit := 10 })).take 10).map
        DbSchedule.fromRow) ∧
    ((([exRow "a1" "a" .STARTED 1000 .null 0 none,
        exRow "b1" "b" .PAUSED 1000 .null 0 none].filter
          (matchesSearch { state := some .STARTED, limit := 10 })).take 10).map
      DbSchedule.fromRow).length ≤ 10 ∧
    ResultsMatch { state := some .STARTED, limit := 10 }
      ((([exRow "a1" "a" .STARTED 1000 .null 0 none,
          exRow "b1" "b" .PAUSED 1000 .null 0 none].filter
            (matchesSearch { state := some .STARTED, limit := 10 })).take 10).map
        DbSchedule.fromRow) ∧
    search [] { limit := 1 } .ok = .ok [] :=
  search_spec
    [exRow "a1" "a" .STARTED 1000 .null 0 none,
      exRow "b1" "b" .PAUSED 1000 .null 0 none] []
    { state := some .STARTED, limit := 10 } { limit := 1 } "disk failure" rfl

/-- Claim C9 counterexample: a name filter that is present but empty is
dropped by the source's `if (params.name)` truthiness test, so a row whose
name does not match the supplied filter is still returned. -/
theorem search_empty_name_filter_ignored :
    search [exRow "a1" "a" .STARTED 1000 .null 0 none]
      { name := some "", limit := 10 } .ok =
      .ok [DbSchedule.fromRow (exRow "a1" "a" .STARTED 1000 .null 0 none)] ∧
    (DbSchedule.fromRow (exRow "a1" "a" .STARTED 1000 .null 0 none)).name ≠ "" :=
  ⟨rfl, by decide⟩

/-- Claim C10: `update` decides field presence by JavaScript truthiness, not
key presence: `frequencyMs = 0` and a falsy JSON payload (`null`, `false`,
`0`, `""`) are treated as absent — the stored column keeps its value — while
`updated_at` is still refreshed and the call still succeeds on a matching
row. -/
theorem update_truthiness (db : List DbSchedule) (id : String) (r : DbSchedule)
    (p : JsonValue) (now : Nat)
    (hfind : findRow db id = some r) (hp : p.truthy = false) :
    ((update db { id := id, frequencyMs := some 0 } now .ok).1 =
        .ok (DbSchedule.fromRow { r with updated_at := now }) ∧
      findRow (update db { id := id, frequencyMs := some 0 } now .ok).2 id =
        some { r with updated_at := now }) ∧
    ((update db { id := id, payload := some p } now .ok).1 =
        .ok (DbSchedule.fromRow { r with updated_at := now }) ∧
      findRow (update db { id := id, payload := some p } now .ok).2 id =
        some { r with updated_at := now }) ∧
    JsonValue.truthy .null = false ∧
    JsonValue.truthy (.bool false) = false ∧
    JsonValue.truthy (.num 0) = false ∧
    JsonValue.truthy (.str "") = false := by
  have h1 := update_ok_of_findRow db { id := id, frequencyMs := some 0 } now r hfind
  have hap1 : applyUpdate { id := id, frequencyMs := some 0 } now r =
      { r with updated_at := now } := by
    simp [applyUpdate]
  have h2 := update_ok_of_findRow db { id := id, payload := some p } now r hfind
  have hap2 : applyUpdate { id := id, payload := some p } now r =
      { r with updated_at := now } := by
    simp [applyUpdate, hp]
  rw [hap1] at h1
  rw [hap2] at h2
  exact ⟨h1, h2, rfl, rfl, by decide, by decide⟩

/-- Witness: a zero frequency and a null payload leave the stored columns
unchanged while `updated_at` is refreshed. -/
theorem update_truthiness_witness :
    ((update [exRow "w10" "n" .STARTED 3000 (.str "keep") 0 none]
        { id := "w10", frequencyMs := some 0 } 4 .ok).1 =
        .ok (DbSchedule.fromRow (exRow "w10" "n" .STARTED 3000 (.str "keep") 4 none)) ∧
      findRow (update [exRow "w10" "n" .STARTED 3000 (.str "keep") 0 none]
        { id := "w10", frequencyMs := some 0 } 4 .ok).2 "w10" =
        some (exRow "w10" "n" .STARTED 3000 (.str "keep") 4 none)) ∧
    ((update [exRow "w10" "n" .STARTED 3000 (.str "keep") 0 none]
        { id := "w10", payload := some .null } 4 .ok).1 =
        .ok (DbSchedule.fromRow (exRow "w10" "n" .STARTED 3000 (.str "keep") 4 none)) ∧
      findRow (update [exRow "w10" "n" .STARTED 3000 (.str "keep") 0 none]
        { id := "w10", payload := some .null } 4 .ok).2 "w10" =
        some (exRow "w10" "n" .STARTED 3000 (.str "keep") 4 none)) ∧
    JsonValue.truthy .null = false ∧
    JsonValue.truthy (.bool false) = false ∧
    JsonValue.truthy (.num 0) = false ∧
    JsonValue.truthy (.str "") = false :=
  update_truthiness [exRow "w10" "n" .STARTED 3000 (.str "keep") 0 none] "w10"
    (exRow "w10" "n" .STARTED 3000 (.str "keep") 0 none) .null 4 rfl rfl

end NangoScheduler
